import Mathlib

/-!
Verification of the Big-Brother MLB analytics client against its
natural-language specification.

The client code under
`src/react-native-frontend/mlb-analytics-mobile/src/` is embedded
shallowly: each asynchronous TypeScript function becomes a pure Lean
function from the outcome of its awaited backend call(s) to its result,
with a thrown JavaScript `Error` modelled as `Except.error` and the
mutable store state passed explicitly.  The query-resolver core described
in the specification (Entity Catalog, Entity Extractor, Query Planner,
Result Aggregator, Ambiguity Handler) has no implementation in the
repository; where a claim depends on it, the definition is modelled from
the specification and marked as such in its doc comment.
-/

namespace BigBrother

/-- JavaScript's `String.prototype.trim`, which the client code applies
to query text: auxiliary pass removing leading whitespace, by structural
recursion on the character list so that the model is kernel-executable
(the core `String.trim` is defined by well-founded recursion and does not
reduce). -/
def dropLeadingWs : List Char → List Char
  | [] => []
  | c :: rest => if c.isWhitespace then dropLeadingWs rest else c :: rest

/-- JavaScript's `String.prototype.trim`: removes leading and trailing
whitespace. -/
def jsTrim (s : String) : String :=
  String.mk ((dropLeadingWs ((dropLeadingWs s.data).reverse)).reverse)

/-! ## Resolver data model (spec §3)

Confidence scores are embedded in hundredths: the spec's 0.0–1.0 scale
becomes 0–100 (so the 0.35 floor is 35, and an exact match's 1.0 is
100).  The claims about confidences only compare them, and the embedding
is order-isomorphic, while keeping every definition kernel-executable. -/

/-- Entity kinds from the spec data model: player, team, venue. -/
inductive EntityKind
  | player
  | team
  | venue
deriving DecidableEq, Repr

/-- Match types from the spec data model: exact, alias, fuzzy. -/
inductive MatchType
  | exactMatch
  | aliasMatch
  | fuzzyMatch
deriving DecidableEq, Repr

/-- Candidate Match from the spec data model: a scored hypothesis that a
query substring (`span`) refers to the entity `entityId` of kind `kind`,
with `confidence` in hundredths (the spec's 0.0–1.0 as 0–100) and a
match type. -/
structure CandidateMatch where
  span : String
  entityId : Nat
  kind : EntityKind
  confidence : Nat
  matchType : MatchType
deriving DecidableEq, Repr

/-- A fact value in `Answer.facts`: numeric or textual, per the spec. -/
inductive FactValue
  | num (n : Int)
  | text (s : String)
deriving DecidableEq, Repr

/-- Answer from the spec data model. `isPartial` embeds the spec field
recording that some tolerable Fetch Step failed. -/
structure Answer where
  intent : String
  boundEntities : List CandidateMatch
  facts : List (String × FactValue)
  confidence : Nat
  isPartial : Bool
  narrative : String
deriving DecidableEq, Repr

/-- Clarification reasons from the spec error taxonomy (§7). -/
inductive ClarifyReason
  | UNRECOGNIZED_QUERY
  | AMBIGUOUS_ENTITY
  | DATA_UNAVAILABLE
deriving DecidableEq, Repr

/-- ClarificationRequest from the spec (§4.6): reason, ranked suggestions,
and a prompt string. -/
structure ClarificationRequest where
  reason : ClarifyReason
  suggestions : List CandidateMatch
  prompt : String
deriving DecidableEq, Repr

/-! ## Entity Catalog lookup (spec §4.1) -/

/-- The minimum confidence floor, default 0.35 per spec §4.1 (35 in
hundredths). -/
def confidenceFloor : Nat := 35

/-- Modelled from the spec: the Entity Catalog's
`lookup(kind, text) -> ordered sequence of Candidate Match` (§4.1).  The
repository contains no Entity Catalog (the nearest code,
`MLBApiService.searchPlayers`, is a thin backend proxy without scoring),
so the per-candidate scoring (exact > alias > fuzzy) is abstracted as the
catalog's scoring function `score`; the floor behaviour — "fails closed:
if no match clears the minimum confidence floor (default 0.35), returns
an empty sequence rather than a low-quality guess" — is what is modelled
here. -/
def lookup (score : EntityKind → String → List CandidateMatch)
    (kind : EntityKind) (text : String) : List CandidateMatch :=
  (score kind text).filter (fun c => confidenceFloor ≤ c.confidence)

/-! ## Ambiguity handling for tied candidates (spec §4.6, §7, §8) -/

/-- The highest confidence among a list of candidate matches (0 when
empty). -/
def topConfidence (cs : List CandidateMatch) : Nat :=
  (cs.map (fun c => c.confidence)).foldr max 0

/-- Whether a candidate is tied for the top confidence of the list. -/
def hasTopConfidence (cs : List CandidateMatch) (c : CandidateMatch) : Bool :=
  c.confidence = topConfidence cs

/-- The candidates tied for the top confidence, in query order. -/
def tiedTop (cs : List CandidateMatch) : List CandidateMatch :=
  cs.filter (hasTopConfidence cs)

/-- Modelled from the spec: the Ambiguity/Fallback Handler (§4.6) invoked
when a span has multiple same-kind high-confidence candidates tied for a
required slot; produces a `ClarificationRequest` with reason
`AMBIGUOUS_ENTITY` listing the tied candidates. -/
def handleAmbiguity (tied : List CandidateMatch) : ClarificationRequest :=
  { reason := ClarifyReason.AMBIGUOUS_ENTITY
    suggestions := tied
    prompt := "Which one did you mean?" }

/-- Outcome of resolving one required entity slot. -/
inductive SlotResolution
  | noMatch
  | bound (c : CandidateMatch)
  | clarify (req : ClarificationRequest)
deriving DecidableEq, Repr

/-- Modelled from the spec: slot resolution for a required entity slot.
The extractor "never silently picks one" among tied candidates (§3); when
two or more candidates tie for the top confidence the Ambiguity Handler
returns a `ClarificationRequest` listing them (§4.6, §7 AmbiguousEntity,
§8 tied-players property).  No implementation exists in the repository. -/
def resolveSlot (cs : List CandidateMatch) : SlotResolution :=
  match tiedTop cs with
  | [] => SlotResolution.noMatch
  | [c] => SlotResolution.bound c
  | c :: c2 :: rest => SlotResolution.clarify (handleAmbiguity (c :: c2 :: rest))

/-! ## Answer construction (spec §3, §4.5) -/

/-- The minimum confidence among contributing matches (100, the spec's
1.0, when there are none — the neutral element for propagation). -/
def minConfidence : List CandidateMatch → Nat
  | [] => 100
  | m :: rest => min m.confidence (minConfidence rest)

/-- Modelled from the spec: Answer construction by the Result Aggregator;
`confidence` is the "propagated minimum of contributing match
confidences" (§3).  No implementation exists in the repository (the
closest code, SearchScreen.handleSearch, assigns a constant relevance of
1 to displayed results and computes no confidence). -/
def mkAnswer (intent : String) (bound : List CandidateMatch)
    (facts : List (String × FactValue)) (isPart : Bool)
    (narrative : String) : Answer :=
  { intent := intent
    boundEntities := bound
    facts := facts
    confidence := minConfidence bound
    isPartial := isPart
    narrative := narrative }

/-! ## Query Plan execution (spec §3, §4.5) -/

/-- Fetch Step from the spec data model: a named external operation whose
failure is either fatal to the plan or tolerable. -/
structure FetchStep where
  name : String
  fatal : Bool
deriving DecidableEq, Repr

/-- The error raised on a fatal step failure, carrying the failed step's
identity (spec §4.5 PlanExecutionError). -/
structure PlanError where
  stepName : String
deriving DecidableEq, Repr

/-- Modelled from the spec: the Result Aggregator's `execute(plan)`
(§4.5).  Each step is paired with the outcome of its external call
(`some v` success producing fact value `v`, `none` failure or timeout).
A fatal step failure aborts with a `PlanError`; a tolerable step failure
records the gap, continues, and marks the answer partial; a success binds
the step's output under the step's name.  Returns the collected facts and
the partial flag.  No implementation exists in the repository. -/
def executePlan :
    List (FetchStep × Option FactValue) →
      Except PlanError (List (String × FactValue) × Bool)
  | [] => Except.ok ([], false)
  | (s, none) :: rest =>
    if s.fatal then Except.error { stepName := s.name }
    else
      match executePlan rest with
      | Except.ok (facts, _) => Except.ok (facts, true)
      | Except.error e => Except.error e
  | (s, some v) :: rest =>
    match executePlan rest with
    | Except.ok (facts, p) => Except.ok ((s.name, v) :: facts, p)
    | Except.error e => Except.error e

/-! ## The API service layer
(src/react-native-frontend/mlb-analytics-mobile/src/utils/index.ts,
second document: the MLB Analytics API Service) -/

/-- The outcome of one awaited backend call as axios delivers it: success
with the response data, or a rejection whose `response.data.message` may
be absent. -/
inductive ApiCallResult (α : Type)
  | success (data : α)
  | failure (message : Option String)
deriving DecidableEq, Repr

/-- `MLBApiService.naturalLanguageSearch` (utils/index.ts lines 505–512):
POSTs `/api/v1/search/natural/` and returns `response.data`; on ANY
failure the catch block throws a new `Error` carrying
`error.response?.data?.message` or the fallback message "Search failed".
The thrown error is modelled as `Except.error`. -/
def naturalLanguageSearch {α : Type} (backendResult : ApiCallResult α) :
    Except String α :=
  match backendResult with
  | ApiCallResult.success d => Except.ok d
  | ApiCallResult.failure msg => Except.error (msg.getD "Search failed")

/-- `MLBApiService.searchPlayers` (utils/index.ts lines 414–424): GETs
`/api/players/search/` and returns `response.data.results`; on any
failure throws `Error("Failed to search players")`. -/
def searchPlayers {α : Type} (backendResult : ApiCallResult α) :
    Except String α :=
  match backendResult with
  | ApiCallResult.success d => Except.ok d
  | ApiCallResult.failure _ => Except.error "Failed to search players"

/-- The natural-language response payload as the screens consume it
(`NaturalLanguageQuery` in types/index_old.ts): a success flag, the
narrative `response`, the result list, and optional extra data. -/
structure NLResult where
  success : Bool
  response : String
  results : List String
  data : Option String
deriving DecidableEq, Repr

/-- A player search hit as SearchScreen maps it. -/
structure PlayerHit where
  name : String
  position : String
  team : String
deriving DecidableEq, Repr

/-- The component state touched by SearchScreen.handleSearch. -/
structure SearchScreenState where
  loading : Bool
  nlResponse : Option NLResult
  results : List PlayerHit
deriving DecidableEq, Repr

/-- `handleSearch` from SearchScreen.tsx lines 49–79 as a function of the
query text and the outcomes of its two awaited calls.  Line 50 guards:
an all-whitespace query returns before any call.  Otherwise the try
block awaits `naturalLanguageSearch` (storing the response; the
recent-search store update is modelled separately by `addSearch`), then
`searchPlayers` (storing mapped results when non-empty); the catch block
only logs, and the finally block clears `loading` — so no outcome
escapes as an exception.  `Except.ok` is the only constructor ever
returned. -/
def handleSearch (searchQuery : String) (nlOutcome : ApiCallResult NLResult)
    (playersOutcome : ApiCallResult (List PlayerHit))
    (st : SearchScreenState) : Except String SearchScreenState :=
  if jsTrim searchQuery = "" then Except.ok st
  else
    let st1 := { st with loading := true }
    match naturalLanguageSearch nlOutcome with
    | Except.error _ => Except.ok { st1 with loading := false }
    | Except.ok nl =>
      let st2 := { st1 with nlResponse := some nl }
      match searchPlayers playersOutcome with
      | Except.error _ => Except.ok { st2 with loading := false }
      | Except.ok players =>
        let st3 :=
          if players.length > 0 then { st2 with results := players } else st2
        Except.ok { st3 with loading := false }

/-- The hook state touched by useNaturalLanguageSearch. -/
structure HookState where
  results : Option String
  loading : Bool
deriving DecidableEq, Repr

/-- `search` from useNaturalLanguageSearch (hooks/index.ts lines
108–139): an all-whitespace query clears the results and returns before
any call (lines 113–117); otherwise the response data is stored when the
response reports success, any thrown error is caught and only logged, and
the finally block clears `loading`. -/
def hookSearch (searchQuery : String) (nlOutcome : ApiCallResult NLResult)
    (st : HookState) : Except String HookState :=
  if jsTrim searchQuery = "" then Except.ok { st with results := none }
  else
    let st1 := { st with loading := true }
    match naturalLanguageSearch nlOutcome with
    | Except.error _ => Except.ok { st1 with loading := false }
    | Except.ok r =>
      Except.ok
        { st1 with
          results := if r.success then r.data else st.results
          loading := false }

/-- The backend requests issued by SearchScreen.handleSearch as a
function of the query text: the guard on line 50 returns before any call
when the trimmed query is empty. -/
def handleSearchRequests (searchQuery : String) : List String :=
  if jsTrim searchQuery = "" then []
  else ["POST /api/v1/search/natural/", "GET /api/players/search/"]

/-- The backend requests issued by useNaturalLanguageSearch.search as a
function of the query text: the guard on lines 114–117 returns before any
call when the trimmed query is empty. -/
def hookSearchRequests (searchQuery : String) : List String :=
  if jsTrim searchQuery = "" then []
  else ["POST /api/v1/search/natural/"]

/-- Modelled from the spec: the `POST /query` boundary (§6) — `4xx` on
malformed input (empty text), which "never reaches the Entity Extractor"
(§8); a query with text is accepted (200) and handed to the extractor.
No such endpoint exists in the repository source (the Django backend is
present only as documentation).  The result is the HTTP status and
whether the Entity Extractor was invoked. -/
def postQuery (text : String) : Nat × Bool :=
  if jsTrim text = "" then (400, false) else (200, true)

/-! ## Request timeouts (utils/index.ts constructor, src/unnamed/part_003) -/

/-- The axios client configuration shape: base URL and timeout in
milliseconds. -/
structure AxiosConfig where
  baseURL : String
  timeoutMs : Nat
deriving DecidableEq, Repr

/-- The shared client created by the `MLBApiService` constructor
(utils/index.ts lines 315–326): `axios.create` with the development base
URL and a hardcoded `timeout: 30000`.  Every request of every service
method goes through this instance and therefore carries this timeout. -/
def mlbApiConfig : AxiosConfig :=
  { baseURL := "http://10.0.0.22:8000", timeoutMs := 30000 }

/-- `API_TIMEOUT` from the repository's environment configuration file
(src/unnamed/part_003 line 25): `API_TIMEOUT=10000   # 10 seconds`.  No
code in the client reads this variable. -/
def API_TIMEOUT : Nat := 10000

/-- The outcome of one HTTP request at the axios layer: success, an HTTP
error (optional backend message), or expiry of the client timeout.  A
timeout is delivered as a rejection and lands in the same catch block as
any other error. -/
inductive HttpOutcome (α : Type)
  | ok (data : α)
  | httpError (message : Option String)
  | timedOut
deriving DecidableEq, Repr

/-- One request through an axios client: a timeout rejects with axios's
timeout message, an HTTP error rejects with its message, success
resolves with the data. -/
def axiosRequest {α : Type} (cfg : AxiosConfig) (outcome : HttpOutcome α) :
    Except String α :=
  match outcome with
  | HttpOutcome.ok d => Except.ok d
  | HttpOutcome.httpError m => Except.error (m.getD "Request failed")
  | HttpOutcome.timedOut =>
    Except.error ("timeout of " ++ toString cfg.timeoutMs ++ "ms exceeded")

/-- `MLBApiService.getPlayerVenuePerformance` (utils/index.ts lines
436–453), the repository's player-at-venue fetch step: issues one GET
through the shared client (so with `mlbApiConfig.timeoutMs`); any
rejection — timeout included — is caught and rethrown as
`Error("Failed to get venue performance")`, i.e. a timeout is that
step's failure, not a distinct outcome. -/
def getPlayerVenuePerformance {α : Type} (outcome : HttpOutcome α) :
    Except String α :=
  match axiosRequest mlbApiConfig outcome with
  | Except.ok d => Except.ok d
  | Except.error _ => Except.error "Failed to get venue performance"

/-! ## Auth stores (store/index_clean.ts, utils/index.ts) -/

/-- The MLBApiService client state relevant to logout: the token held in
SecureStore and the in-memory `authToken` field. -/
structure ClientState where
  secureToken : Option String
  authToken : Option String
deriving DecidableEq, Repr

/-- The auth store state (useAuthStore in store/index_clean.ts). -/
structure AuthStoreState where
  user : Option String
  isAuthenticated : Bool
  isLoading : Bool
  error : Option String
deriving DecidableEq, Repr

/-- `MLBApiService.logout` (utils/index.ts lines 402–411): tries the
backend POST `/api/v1/auth/logout/`; the catch block swallows any
failure; the finally block deletes the SecureStore token and nulls the
in-memory `authToken`.  The backend outcome is a parameter; the result is
always `Except.ok`, since no path rethrows. -/
def apiLogout (backendResult : Except String Unit) (s : ClientState) :
    Except String ClientState :=
  match backendResult with
  | Except.ok _ => Except.ok { s with secureToken := none, authToken := none }
  | Except.error _ =>
    Except.ok { s with secureToken := none, authToken := none }

/-- `useAuthStore.logout` (store/index_clean.ts lines 66–80): sets
`isLoading`, awaits `mlbApi.logout()`, logs (does not rethrow) any error,
and in the finally block clears `user`, `isAuthenticated`, `isLoading`
and `error`. -/
def storeLogout (backendResult : Except String Unit) (api : ClientState)
    (st : AuthStoreState) : Except String (ClientState × AuthStoreState) :=
  let st1 := { st with isLoading := true }
  match apiLogout backendResult api with
  | Except.ok api2 =>
    Except.ok
      (api2,
        { st1 with
          user := none, isAuthenticated := false, isLoading := false,
          error := none })
  | Except.error _ =>
    Except.ok
      (api,
        { st1 with
          user := none, isAuthenticated := false, isLoading := false,
          error := none })

/-! ## Favorites store (store/index_clean.ts lines 272–327) -/

/-- `useFavoritesStore.addFavoriteTeam` (lines 278–289): awaits the
backend call first — on a throw the catch block logs and rethrows with no
local mutation; on success appends `teamId` only if not already present.
The boolean second component records whether the call threw. -/
def addFavoriteTeam (backendOk : Bool) (teamId : Int)
    (favoriteTeams : List Int) : List Int × Bool :=
  if backendOk then
    (if teamId ∈ favoriteTeams then favoriteTeams
     else favoriteTeams ++ [teamId], false)
  else (favoriteTeams, true)

/-- `useFavoritesStore.removeFavoriteTeam` (lines 291–294): filters the
id out locally (no backend call). -/
def removeFavoriteTeam (teamId : Int) (favoriteTeams : List Int) :
    List Int :=
  favoriteTeams.filter (fun id => id ≠ teamId)

/-- `useFavoritesStore.addFavoritePlayer` (lines 296–307): same shape as
`addFavoriteTeam` for players. -/
def addFavoritePlayer (backendOk : Bool) (playerId : Int)
    (favoritePlayers : List Int) : List Int × Bool :=
  if backendOk then
    (if playerId ∈ favoritePlayers then favoritePlayers
     else favoritePlayers ++ [playerId], false)
  else (favoritePlayers, true)

/-- `useFavoritesStore.removeFavoritePlayer` (lines 309–312). -/
def removeFavoritePlayer (playerId : Int) (favoritePlayers : List Int) :
    List Int :=
  favoritePlayers.filter (fun id => id ≠ playerId)

/-- One favorites-store operation, with the backend outcome of an add
recorded alongside it. -/
inductive FavOp
  | addTeam (backendOk : Bool) (id : Int)
  | removeTeam (id : Int)
  | addPlayer (backendOk : Bool) (id : Int)
  | removePlayer (id : Int)
deriving DecidableEq, Repr

/-- The favorites store state. -/
structure FavoritesState where
  favoriteTeams : List Int
  favoritePlayers : List Int
deriving DecidableEq, Repr

/-- Apply one favorites operation to the store state (a failed add leaves
the state unchanged, as the catch block rethrows before any `set`). -/
def applyFavOp : FavOp → FavoritesState → FavoritesState
  | FavOp.addTeam ok id, s =>
    { s with favoriteTeams := (addFavoriteTeam ok id s.favoriteTeams).1 }
  | FavOp.removeTeam id, s =>
    { s with favoriteTeams := removeFavoriteTeam id s.favoriteTeams }
  | FavOp.addPlayer ok id, s =>
    { s with favoritePlayers := (addFavoritePlayer ok id s.favoritePlayers).1 }
  | FavOp.removePlayer id, s =>
    { s with favoritePlayers := removeFavoritePlayer id s.favoritePlayers }

/-- Run a sequence of favorites operations from the store's initial state
(both lists empty, store/index_clean.ts lines 275–276). -/
def runFavOps (ops : List FavOp) : FavoritesState :=
  ops.foldl (fun s op => applyFavOp op s) { favoriteTeams := [], favoritePlayers := [] }

/-! ## Search store (store/index_clean.ts lines 218–256) -/

/-- A recent-search entry (store/index_clean.ts lines 202–207). -/
structure RecentSearch where
  id : String
  query : String
  timestamp : Nat
  results : Nat
deriving DecidableEq, Repr

/-- `useSearchStore.addSearch` (lines 225–237): builds a new entry whose
`results` field is `results.length`, prepends it, and keeps only the
first 19 previous entries (`recentSearches.slice(0, 19)`), for at most 20
in total.  `idStr` and `timestamp` stand for the two `Date.now()`
reads. -/
def addSearch {α : Type} (idStr : String) (timestamp : Nat) (query : String)
    (results : List α) (recentSearches : List RecentSearch) :
    List RecentSearch :=
  let newSearch : RecentSearch :=
    { id := idStr, query := query, timestamp := timestamp,
      results := results.length }
  newSearch :: recentSearches.take 19

/-! ## Concrete inputs used by the witnesses -/

/-- A concrete low-confidence candidate: a fuzzy match below the 0.35
floor. -/
def lowCand : CandidateMatch :=
  { span := "jude", entityId := 592450, kind := EntityKind.player,
    confidence := 30, matchType := MatchType.fuzzyMatch }

/-- A concrete catalog scoring function producing only `lowCand`. -/
def lowScore : EntityKind → String → List CandidateMatch :=
  fun _ _ => [lowCand]

/-- First of two players aliased "Judge" (spec §8 Scenario B). -/
def judgeA : CandidateMatch :=
  { span := "Judge", entityId := 592450, kind := EntityKind.player,
    confidence := 90, matchType := MatchType.aliasMatch }

/-- Second of two players aliased "Judge". -/
def judgeB : CandidateMatch :=
  { span := "Judge", entityId := 605141, kind := EntityKind.player,
    confidence := 90, matchType := MatchType.aliasMatch }

/-- A concrete two-step all-tolerable plan with exactly one failure. -/
def demoPlan : List (FetchStep × Option FactValue) :=
  [({ name := "gameLog", fatal := false }, some (FactValue.num 42)),
   ({ name := "boxScore", fatal := false }, none)]

/-- Whether a slot resolution silently bound a single candidate. -/
def isBoundSlot : SlotResolution → Bool
  | SlotResolution.bound _ => true
  | _ => false

/-- The (name, value) pairs produced by the successful steps of a plan,
in plan order: the data the spec requires to be present in
`Answer.facts`. -/
def successFacts : List (FetchStep × Option FactValue) → List (String × FactValue)
  | [] => []
  | (_, none) :: rest => successFacts rest
  | (s, some v) :: rest => (s.name, v) :: successFacts rest

/-! ## Helper lemmas -/

/-- A plan with no failing step executes to its success facts with the
partial flag clear. -/
theorem executePlan_all_ok (plan : List (FetchStep × Option FactValue))
    (h : ∀ p ∈ plan, p.2 ≠ none) :
    executePlan plan = Except.ok (successFacts plan, false) := by
  induction plan with
  | nil => rfl
  | cons hd rest ih =>
    obtain ⟨s0, r0⟩ := hd
    cases r0 with
    | none => exact absurd rfl (h (s0, none) (List.mem_cons_self _ _))
    | some v0 =>
      have hrest := ih (fun p hp => h p (List.mem_cons_of_mem _ hp))
      simp [executePlan, successFacts, hrest]

/-- The propagated minimum is below every contributing confidence. -/
theorem minConfidence_le_of_mem (bound : List CandidateMatch)
    (m : CandidateMatch) (hm : m ∈ bound) :
    minConfidence bound ≤ m.confidence := by
  induction bound with
  | nil => cases hm
  | cons a rest ih =>
    rcases List.mem_cons.mp hm with h | h
    · subst h; exact min_le_left _ _
    · exact le_trans (min_le_right _ _) (ih h)

/-- Appending an id only when absent preserves distinctness. -/
theorem appendIfAbsent_nodup (id : Int) (s : List Int) (h : s.Nodup) :
    (if id ∈ s then s else s ++ [id]).Nodup := by
  by_cases hmem : id ∈ s
  · rw [if_pos hmem]; exact h
  · rw [if_neg hmem]
    refine List.Nodup.append h (List.nodup_singleton id) ?_
    intro x hx hx2
    rw [List.mem_singleton] at hx2
    subst hx2
    exact hmem hx

/-- A successful or failed `addFavoriteTeam` preserves distinctness. -/
theorem addFavoriteTeam_nodup (ok : Bool) (id : Int) (s : List Int)
    (h : s.Nodup) : ((addFavoriteTeam ok id s).1).Nodup := by
  cases ok with
  | false => simpa [addFavoriteTeam] using h
  | true => simpa [addFavoriteTeam] using appendIfAbsent_nodup id s h

/-- A successful or failed `addFavoritePlayer` preserves distinctness. -/
theorem addFavoritePlayer_nodup (ok : Bool) (id : Int) (s : List Int)
    (h : s.Nodup) : ((addFavoritePlayer ok id s).1).Nodup := by
  cases ok with
  | false => simpa [addFavoritePlayer] using h
  | true => simpa [addFavoritePlayer] using appendIfAbsent_nodup id s h

/-- Every favorites operation preserves distinctness of both lists. -/
theorem applyFavOp_nodup (op : FavOp) (s : FavoritesState)
    (h1 : s.favoriteTeams.Nodup) (h2 : s.favoritePlayers.Nodup) :
    (applyFavOp op s).favoriteTeams.Nodup ∧
      (applyFavOp op s).favoritePlayers.Nodup := by
  cases op with
  | addTeam ok id => exact ⟨addFavoriteTeam_nodup ok id _ h1, h2⟩
  | removeTeam id => exact ⟨h1.filter _, h2⟩
  | addPlayer ok id => exact ⟨h1, addFavoritePlayer_nodup ok id _ h2⟩
  | removePlayer id => exact ⟨h1, h2.filter _⟩

/-- Folding favorites operations from a duplicate-free state keeps both
lists duplicate-free. -/
theorem foldFavOps_nodup (ops : List FavOp) (s : FavoritesState)
    (h1 : s.favoriteTeams.Nodup) (h2 : s.favoritePlayers.Nodup) :
    (ops.foldl (fun s op => applyFavOp op s) s).favoriteTeams.Nodup ∧
      (ops.foldl (fun s op => applyFavOp op s) s).favoritePlayers.Nodup := by
  induction ops generalizing s with
  | nil => exact ⟨h1, h2⟩
  | cons op rest ih =>
    have h := applyFavOp_nodup op s h1 h2
    exact ih (applyFavOp op s) h.1 h.2

/-! ## Claim theorems -/

/-- Claim C1, counterexample: contrary to the claim that the
natural-language search entry point never propagates an exception, a
backend failure with no response message makes
`MLBApiService.naturalLanguageSearch` throw `Error("Search failed")` to
its caller — modelled as `Except.error`, not a returned response
object. -/
theorem C1_counterexample_nls_throws :
    naturalLanguageSearch (ApiCallResult.failure none : ApiCallResult NLResult) =
      Except.error "Search failed" := rfl

/-- Claim C1, amended: `naturalLanguageSearch` propagates every backend
failure to its caller as a thrown Error carrying the backend message or
"Search failed"; the no-throw recovery sits one level up — its callers
`SearchScreen.handleSearch` and `useNaturalLanguageSearch.search` wrap
the call in try/catch and never rethrow, so no failure escapes them. -/
theorem C1_throws_at_service_caught_at_callers :
    (∀ (msg : Option String) (d : NLResult),
        naturalLanguageSearch (ApiCallResult.failure msg : ApiCallResult NLResult) =
          Except.error (msg.getD "Search failed") ∧
        naturalLanguageSearch (ApiCallResult.success d) = Except.ok d) ∧
    (∀ (q : String) (nl : ApiCallResult NLResult)
        (ps : ApiCallResult (List PlayerHit)) (st : SearchScreenState),
        ∃ st2, handleSearch q nl ps st = Except.ok st2) ∧
    (∀ (q : String) (nl : ApiCallResult NLResult) (st : HookState),
        ∃ st2, hookSearch q nl st = Except.ok st2) := by
  refine ⟨fun msg d => ⟨rfl, rfl⟩, fun q nl ps st => ?_, fun q nl st => ?_⟩
  · unfold handleSearch
    by_cases hq : jsTrim q = ""
    · rw [if_pos hq]; exact ⟨st, rfl⟩
    · rw [if_neg hq]
      cases nl with
      | failure m => exact ⟨_, rfl⟩
      | success r =>
        cases ps with
        | failure m => exact ⟨_, rfl⟩
        | success players => exact ⟨_, rfl⟩
  · unfold hookSearch
    by_cases hq : jsTrim q = ""
    · rw [if_pos hq]; exact ⟨_, rfl⟩
    · rw [if_neg hq]
      cases nl with
      | failure m => exact ⟨_, rfl⟩
      | success r => exact ⟨_, rfl⟩

/-- Claim C2: a query whose text is empty or all-whitespace is rejected
before any work — `SearchScreen.handleSearch` and
`useNaturalLanguageSearch.search` issue no backend request and return
early, and at the modelled `POST /query` boundary the response is a 4xx
(400) with the Entity Extractor never invoked. -/
theorem C2_empty_query_rejected_no_fetch (q : String)
    (nl : ApiCallResult NLResult) (ps : ApiCallResult (List PlayerHit))
    (st : SearchScreenState) (hst : HookState) (hq : jsTrim q = "") :
    handleSearchRequests q = [] ∧
    hookSearchRequests q = [] ∧
    handleSearch q nl ps st = Except.ok st ∧
    hookSearch q nl hst = Except.ok { hst with results := none } ∧
    postQuery q = (400, false) := by
  refine ⟨?_, ?_, ?_, ?_, ?_⟩ <;>
    simp [handleSearchRequests, hookSearchRequests, handleSearch,
      hookSearch, postQuery, hq]

/-- Claim C2, witness at the all-whitespace query `"   "`. -/
theorem C2_witness :
    handleSearchRequests "   " = [] ∧
    hookSearchRequests "   " = [] ∧
    handleSearch "   " (ApiCallResult.failure none) (ApiCallResult.failure none)
        { loading := false, nlResponse := none, results := [] } =
      Except.ok { loading := false, nlResponse := none, results := [] } ∧
    hookSearch "   " (ApiCallResult.failure none) { results := none, loading := false } =
      Except.ok { results := none, loading := false } ∧
    postQuery "   " = (400, false) :=
  C2_empty_query_rejected_no_fetch "   " (ApiCallResult.failure none)
    (ApiCallResult.failure none)
    { loading := false, nlResponse := none, results := [] }
    { results := none, loading := false } (by decide)

/-- Claim C3, counterexample: the shared axios client created by the
`MLBApiService` constructor carries a hardcoded 30000 ms timeout, not the
claimed 10-second default; the environment file's `API_TIMEOUT=10000` is
never read by the client. -/
theorem C3_counterexample_timeout_not_10s :
    mlbApiConfig.timeoutMs = 30000 ∧ mlbApiConfig.timeoutMs ≠ 10000 :=
  ⟨rfl, by decide⟩

/-- Claim C3, amended: every fetch call goes through the shared client
whose timeout is 30 seconds (30000 ms, hardcoded in the constructor and
differing from the env file's `API_TIMEOUT` of 10000 ms), and a timeout
is treated as that step's failure — `getPlayerVenuePerformance` maps a
timed-out request to the same thrown Error as any other failure, not to a
distinct outcome. -/
theorem C3_timeout_30s_and_treated_as_failure :
    mlbApiConfig.timeoutMs = 30000 ∧
    API_TIMEOUT = 10000 ∧
    mlbApiConfig.timeoutMs ≠ API_TIMEOUT ∧
    (∀ (α : Type),
      getPlayerVenuePerformance (HttpOutcome.timedOut : HttpOutcome α) =
        Except.error "Failed to get venue performance" ∧
      getPlayerVenuePerformance (HttpOutcome.httpError none : HttpOutcome α) =
        Except.error "Failed to get venue performance") :=
  ⟨rfl, rfl, by decide, fun _ => ⟨rfl, rfl⟩⟩

/-- Claim C4: an Answer's confidence — the propagated minimum of the
contributing match confidences — never exceeds the confidence of any
candidate match bound by the answer. -/
theorem C4_answer_confidence_le_bound (intent : String)
    (bound : List CandidateMatch) (facts : List (String × FactValue))
    (isPart : Bool) (narrative : String) (m : CandidateMatch)
    (hm : m ∈ bound) :
    (mkAnswer intent bound facts isPart narrative).confidence ≤
      m.confidence :=
  minConfidence_le_of_mem bound m hm

/-- Claim C4, witness: an answer binding the two tied Judge candidates
has confidence at most judgeA's. -/
theorem C4_witness :
    (mkAnswer "PLAYER_AT_VENUE" [judgeA, judgeB] [] false "").confidence ≤
      judgeA.confidence :=
  C4_answer_confidence_le_bound "PLAYER_AT_VENUE" [judgeA, judgeB] [] false ""
    judgeA (by decide)

/-- Claim C5: when two different known players tie for the top
confidence on a span, slot resolution returns a `ClarificationRequest`
with reason `AMBIGUOUS_ENTITY` listing both — and never silently binds a
single candidate. -/
theorem C5_tied_players_clarification (cs : List CandidateMatch)
    (a b : CandidateMatch) (ha : a ∈ cs) (hb : b ∈ cs)
    (hab : a.entityId ≠ b.entityId)
    (hca : a.confidence = topConfidence cs)
    (hcb : b.confidence = topConfidence cs) :
    resolveSlot cs = SlotResolution.clarify (handleAmbiguity (tiedTop cs)) ∧
    (handleAmbiguity (tiedTop cs)).reason = ClarifyReason.AMBIGUOUS_ENTITY ∧
    a ∈ (handleAmbiguity (tiedTop cs)).suggestions ∧
    b ∈ (handleAmbiguity (tiedTop cs)).suggestions ∧
    isBoundSlot (resolveSlot cs) = false := by
  have hafil : a ∈ tiedTop cs := by
    unfold tiedTop
    exact List.mem_filter.mpr ⟨ha, by simp [hasTopConfidence, hca]⟩
  have hbfil : b ∈ tiedTop cs := by
    unfold tiedTop
    exact List.mem_filter.mpr ⟨hb, by simp [hasTopConfidence, hcb]⟩
  cases hlist : tiedTop cs with
  | nil =>
    rw [hlist] at hafil
    cases hafil
  | cons c tail =>
    cases tail with
    | nil =>
      rw [hlist] at hafil hbfil
      have ha1 : a = c := by simpa using hafil
      have hb1 : b = c := by simpa using hbfil
      exact absurd (by rw [ha1, hb1]) hab
    | cons c2 rest =>
      rw [hlist] at hafil hbfil
      refine ⟨?_, rfl, hafil, hbfil, ?_⟩
      · unfold resolveSlot
        rw [hlist]
      · unfold resolveSlot isBoundSlot
        rw [hlist]

/-- Claim C5, witness: the two players aliased "Judge" with tied
confidence 0.9 yield a clarification listing both (spec §8
Scenario B). -/
theorem C5_witness :
    resolveSlot [judgeA, judgeB] =
      SlotResolution.clarify (handleAmbiguity (tiedTop [judgeA, judgeB])) ∧
    (handleAmbiguity (tiedTop [judgeA, judgeB])).reason =
      ClarifyReason.AMBIGUOUS_ENTITY ∧
    judgeA ∈ (handleAmbiguity (tiedTop [judgeA, judgeB])).suggestions ∧
    judgeB ∈ (handleAmbiguity (tiedTop [judgeA, judgeB])).suggestions ∧
    isBoundSlot (resolveSlot [judgeA, judgeB]) = false :=
  C5_tied_players_clarification [judgeA, judgeB] judgeA judgeB (by decide)
    (by decide) (by decide) (by decide) (by decide)

/-- Claim C6: the Entity Catalog lookup fails closed — every returned
candidate clears the 0.35 confidence floor, so when no raw candidate
clears it the result is the empty sequence, never a below-floor
candidate. -/
theorem C6_lookup_fails_closed
    (score : EntityKind → String → List CandidateMatch)
    (kind : EntityKind) (text : String)
    (hlow : ∀ c ∈ score kind text, c.confidence < confidenceFloor) :
    lookup score kind text = [] ∧
    (∀ (score2 : EntityKind → String → List CandidateMatch)
        (kind2 : EntityKind) (text2 : String) (c : CandidateMatch),
        c ∈ lookup score2 kind2 text2 → confidenceFloor ≤ c.confidence) := by
  constructor
  · unfold lookup
    rw [List.filter_eq_nil_iff]
    intro c hc
    simpa using (hlow c hc).not_le
  · intro score2 kind2 text2 c hc
    unfold lookup at hc
    have h := List.of_mem_filter hc
    simpa using h

/-- Claim C6, witness: a catalog whose only candidate scores 0.30 —
below the 0.35 floor — yields the empty sequence. -/
theorem C6_witness :
    lookup lowScore EntityKind.player "jude" = [] ∧
    (∀ (score2 : EntityKind → String → List CandidateMatch)
        (kind2 : EntityKind) (text2 : String) (c : CandidateMatch),
        c ∈ lookup score2 kind2 text2 → confidenceFloor ≤ c.confidence) :=
  C6_lookup_fails_closed lowScore EntityKind.player "jude" (by decide)

/-- Claim C7: executing a plan of tolerable steps of which exactly one
fails yields a non-aborted answer whose partial flag is set and whose
facts are exactly the (name, value) data of the remaining successful
steps. -/
theorem C7_partial_result_law (plan : List (FetchStep × Option FactValue))
    (htol : ∀ p ∈ plan, p.1.fatal = false)
    (hone : (plan.filter (fun p => p.2.isNone)).length = 1) :
    executePlan plan = Except.ok (successFacts plan, true) := by
  induction plan with
  | nil => simp at hone
  | cons hd rest ih =>
    obtain ⟨s0, r0⟩ := hd
    cases r0 with
    | none =>
      have hfatal : s0.fatal = false :=
        htol (s0, none) (List.mem_cons_self _ _)
      have hcons : ((s0, none) :: rest).filter (fun p => p.2.isNone) =
          (s0, none) :: rest.filter (fun p => p.2.isNone) :=
        List.filter_cons_of_pos rfl
      rw [hcons, List.length_cons] at hone
      have hrest0 : (rest.filter (fun p => p.2.isNone)).length = 0 := by
        omega
      have hall : ∀ p ∈ rest, p.2 ≠ none := by
        intro p hp hnone
        have hmem : p ∈ rest.filter (fun p => p.2.isNone) :=
          List.mem_filter.mpr ⟨hp, by simp [hnone]⟩
        rw [List.length_eq_zero] at hrest0
        rw [hrest0] at hmem
        cases hmem
      have hex := executePlan_all_ok rest hall
      simp [executePlan, successFacts, hfatal, hex]
    | some v0 =>
      have hcons : ((s0, some v0) :: rest).filter (fun p => p.2.isNone) =
          rest.filter (fun p => p.2.isNone) :=
        List.filter_cons_of_neg (by simp)
      have hone2 : (rest.filter (fun p => p.2.isNone)).length = 1 := by
        rw [hcons] at hone
        exact hone
      have hrest := ih (fun p hp => htol p (List.mem_cons_of_mem _ hp)) hone2
      simp [executePlan, successFacts, hrest]

/-- Claim C7, witness: of the two tolerable steps of `demoPlan` exactly
the box-score step fails; execution returns the game-log fact with the
partial flag set. -/
theorem C7_witness :
    executePlan demoPlan = Except.ok (successFacts demoPlan, true) :=
  C7_partial_result_law demoPlan (by decide) (by decide)

/-- Claim C8: logout clears the whole client auth state whether or not
the backend call fails — the SecureStore token is deleted, the in-memory
`authToken` is nulled, and the auth store ends with no user, not
authenticated, not loading, and no error; neither `MLBApiService.logout`
nor `useAuthStore.logout` rethrows. -/
theorem C8_logout_clears_auth_state (backendResult : Except String Unit)
    (api : ClientState) (st : AuthStoreState) :
    apiLogout backendResult api =
      Except.ok { secureToken := none, authToken := none } ∧
    storeLogout backendResult api st =
      Except.ok
        ({ secureToken := none, authToken := none },
          { user := none, isAuthenticated := false, isLoading := false,
            error := none }) := by
  cases backendResult <;> exact ⟨rfl, rfl⟩

/-- Claim C9: a failed add leaves the favorites list untouched and
rethrows (second component `true`), and any sequence of add and remove
operations from the store's initial state leaves both `favoriteTeams`
and `favoritePlayers` free of duplicate ids. -/
theorem C9_favorites_no_dup_no_mutation_on_error :
    (∀ (id : Int) (s : List Int), addFavoriteTeam false id s = (s, true)) ∧
    (∀ (id : Int) (s : List Int), addFavoritePlayer false id s = (s, true)) ∧
    (∀ (ops : List FavOp), (runFavOps ops).favoriteTeams.Nodup ∧
        (runFavOps ops).favoritePlayers.Nodup) := by
  refine ⟨fun id s => rfl, fun id s => rfl, fun ops => ?_⟩
  exact foldFavOps_nodup ops
    { favoriteTeams := [], favoritePlayers := [] } (by simp) (by simp)

/-- Claim C10: `addSearch` keeps at most 20 recent searches, places the
new entry (whose result count is `results.length`) first, and the result
is exactly the 20 most recent entries — only older ones are
discarded. -/
theorem C10_addSearch_bounded_history {α : Type} (idStr : String)
    (timestamp : Nat) (query : String) (results : List α)
    (recentSearches : List RecentSearch) :
    (addSearch idStr timestamp query results recentSearches).length ≤ 20 ∧
    (addSearch idStr timestamp query results recentSearches).head? =
      some { id := idStr, query := query, timestamp := timestamp,
             results := results.length } ∧
    addSearch idStr timestamp query results recentSearches =
      ({ id := idStr, query := query, timestamp := timestamp,
         results := results.length } :: recentSearches).take 20 := by
  refine ⟨?_, rfl, rfl⟩
  have h := Nat.min_le_left 19 recentSearches.length
  simp only [addSearch, List.length_cons, List.length_take]
  omega

end BigBrother
